import Mathlib

/-!
Shallow embedding of `src/scripts/pycsv.py`, a CSV column filter.

The script reads a CSV stream whose first record is a header, drops the
columns named in a fixed `remove_list`, and writes the result to stdout.
We model a parsed CSV stream as a header (`List String`) together with the
data records (`List (List String)`), and model the semantics of Python's
`csv.DictReader` / `csv.DictWriter` explicitly:

* `csv.DictReader` turns each record into a dict `dict(zip(fieldnames, row))`;
  when the record is shorter than the header the missing keys are filled
  with `restval` (default `None`); when it is longer the extra values are
  stored under `restkey` (default `None`, not a string key); blank records
  (`row == []`) are skipped entirely.  With duplicate header names the
  later occurrence wins (last write to the dict).
* `csv.DictWriter.writerow` writes, for each field name, the dict value,
  rendering `None` as the empty string.
* A lookup `row[col]` for a `col` not in the dict raises `KeyError`; we
  model this fallibly with `Option`.
-/

namespace PyCsv

/-- The fixed removal list from the top of `pycsv.py`. -/
def remove_list : List String :=
  ["E1", "E2", "E3", "E4", "E5", "E6", "C1", "C2", "C3", "C4", "C5", "C6"]

/-- Index of the last occurrence of `col` in `header` (Python's
`dict(zip(fieldnames, row))` lets the later duplicate win). -/
def lastIdx? : List String → String → Option Nat
  | [], _ => none
  | c :: cs, col =>
    match lastIdx? cs col with
    | some i => some (i + 1)
    | none => if c = col then some 0 else none

/-- Index of the first occurrence of `col` in a list (used to talk about
positions in headers and output rows). -/
def firstIdx? : List String → String → Option Nat
  | [], _ => none
  | c :: cs, col => if c = col then some 0 else (firstIdx? cs col).map (· + 1)

/-- Row-dictionary lookup `row[col]` of a `csv.DictReader` record.
Here `none` models a `KeyError` (the column is not a key of the dict);
`some none` models the `restval` fill value `None` (record shorter than
header); `some (some v)` is an actual cell value. -/
def rowLookup (header record : List String) (col : String) :
    Option (Option String) :=
  (lastIdx? header col).map (fun i => record[i]?)

/-- The dict comprehension `{col: row[col] for col in fieldnames}` of
`remove_columns`, as the ordered list of looked-up values; `none` models an
uncaught `KeyError`. -/
def filteredRow (header fieldnames record : List String) :
    Option (List (Option String)) :=
  fieldnames.mapM (rowLookup header record)

/-- How `csv.DictWriter` renders a cell: `None` becomes the empty string. -/
def writeCell : Option String → String
  | none => ""
  | some v => v

/-- The record written by `writer.writerow(filtered_row)` for one input
record (`none` models the uncaught `KeyError` aborting the row). -/
def writtenRow (header fieldnames record : List String) :
    Option (List String) :=
  (filteredRow header fieldnames record).map (List.map writeCell)

/-- The list comprehension
`[col for col in reader.fieldnames if col not in columns_to_remove]`. -/
def survivors (header columns_to_remove : List String) : List String :=
  header.filter (fun col => !(columns_to_remove.contains col))

/-- The `for row in reader` loop: blank records are skipped (as
`csv.DictReader` does), each other record is filtered and written; an
uncaught `KeyError` stops the loop, keeping the rows already written and
setting the abort flag. -/
def processRows (header fieldnames : List String) :
    List (List String) → List (List String) × Bool
  | [] => ([], false)
  | r :: rs =>
    if r.isEmpty then processRows header fieldnames rs
    else
      match writtenRow header fieldnames r with
      | none => ([], true)
      | some out =>
        let (rest, err) := processRows header fieldnames rs
        (out :: rest, err)

/-- The observable output of `remove_columns`: the single header line
written by `writeheader`, the data rows written before any abort, and
whether the loop aborted on an uncaught `KeyError`. -/
structure CsvOutput where
  outHeader : List String
  outRows : List (List String)
  aborted : Bool
deriving DecidableEq, Repr

/-- The function `remove_columns(reader, writer, columns_to_remove)` from
`pycsv.py`, on a parsed input stream `(header, records)`. -/
def remove_columns (header : List String) (records : List (List String))
    (columns_to_remove : List String) : CsvOutput :=
  let fieldnames := survivors header columns_to_remove
  let (rows, err) := processRows header fieldnames records
  ⟨fieldnames, rows, err⟩

/-- The usage message printed to stderr when no argument is given. -/
def usageMessage : String := "Usage: script.py [file]"

/-- Observable result of one run of the script. -/
structure ProgResult where
  exitCode : Nat
  stderrMsg : Option String
  usedStdin : Bool
  output : Option CsvOutput
deriving DecidableEq, Repr

/-- The `__main__` block of `pycsv.py`.  `argv` is the full `sys.argv`
(program name first); `fileExists` tells whether `open(sys.argv[1])`
succeeds; `fileInput` and `stdinInput` are the parsed contents of the file
and of standard input.  On the fallback branch the remaining arguments are
captured (`columns = sys.argv[1:]`) but never used.  An unhandled
exception makes CPython exit with status 1; normal completion exits 0. -/
def mainRun (argv : List String) (fileExists : Bool)
    (fileInput stdinInput : List String × List (List String)) : ProgResult :=
  if argv.length < 2 then
    ⟨1, some usageMessage, false, none⟩
  else if fileExists then
    let out := remove_columns fileInput.1 fileInput.2 remove_list
    ⟨if out.aborted then 1 else 0, none, false, some out⟩
  else
    let columns := argv.drop 1
    let _ := columns
    let out := remove_columns stdinInput.1 stdinInput.2 remove_list
    ⟨if out.aborted then 1 else 0, none, true, some out⟩

/-- Total version of `lastIdx?`, meaningful when the column is in the
header. -/
def lastIdxD (header : List String) (col : String) : Nat :=
  (lastIdx? header col).getD 0

/-- The cell the script emits for column `col` of `record`: the value at
the column's header position, or (via `restval = None`) the empty string
when the record is too short. -/
def cellOut (header record : List String) (col : String) : String :=
  writeCell (record[lastIdxD header col]?)

/-- Normal form of the record written for one input record, when every
field name occurs in the header. -/
def rowOut (header fieldnames record : List String) : List String :=
  fieldnames.map (cellOut header record)

lemma lastIdx?_isSome_of_mem {l : List String} {col : String} (hm : col ∈ l) :
    ∃ i, lastIdx? l col = some i := by
  induction l with
  | nil => cases hm
  | cons c cs ih =>
    cases h : lastIdx? cs col with
    | some i => exact ⟨i + 1, by simp [lastIdx?, h]⟩
    | none =>
      rcases List.mem_cons.mp hm with hc | hcs
      · exact ⟨0, by simp [lastIdx?, h, hc.symm]⟩
      · obtain ⟨i, hi⟩ := ih hcs
        rw [hi] at h
        cases h

lemma lastIdx?_lt_length {l : List String} {col : String} {i : Nat}
    (h : lastIdx? l col = some i) : i < l.length := by
  induction l generalizing i with
  | nil => cases h
  | cons c cs ih =>
    rw [lastIdx?] at h
    cases hcs : lastIdx? cs col with
    | some j =>
      rw [hcs] at h
      cases h
      exact Nat.succ_lt_succ (ih hcs)
    | none =>
      rw [hcs] at h
      by_cases hc : c = col
      · rw [if_pos hc] at h
        cases h
        exact Nat.succ_pos _
      · rw [if_neg hc] at h
        cases h

lemma getElem?_lastIdx? {l : List String} {col : String} {i : Nat}
    (h : lastIdx? l col = some i) : l[i]? = some col := by
  induction l generalizing i with
  | nil => cases h
  | cons c cs ih =>
    rw [lastIdx?] at h
    cases hcs : lastIdx? cs col with
    | some j =>
      rw [hcs] at h
      cases h
      simpa using ih hcs
    | none =>
      rw [hcs] at h
      by_cases hc : c = col
      · rw [if_pos hc] at h
        cases h
        simp [hc]
      · rw [if_neg hc] at h
        cases h

lemma lastIdx?_of_nodup_getElem? {l : List String} {col : String} {k : Nat}
    (hnd : l.Nodup) (hk : l[k]? = some col) : lastIdx? l col = some k := by
  induction l generalizing k with
  | nil => cases hk
  | cons c cs ih =>
    cases k with
    | zero =>
      rw [List.getElem?_cons_zero] at hk
      cases hk
      have hnotin : col ∉ cs := (List.nodup_cons.mp hnd).1
      have hnone : lastIdx? cs col = none := by
        cases h : lastIdx? cs col with
        | none => rfl
        | some j =>
          exact absurd (List.getElem?_mem (getElem?_lastIdx? h)) hnotin
      simp [lastIdx?, hnone]
    | succ k =>
      rw [List.getElem?_cons_succ] at hk
      have := ih (List.nodup_cons.mp hnd).2 hk
      simp [lastIdx?, this]

lemma firstIdx?_isSome_of_mem {l : List String} {col : String} (hm : col ∈ l) :
    ∃ i, firstIdx? l col = some i := by
  induction l with
  | nil => cases hm
  | cons c cs ih =>
    by_cases hc : c = col
    · exact ⟨0, by simp [firstIdx?, hc]⟩
    · rcases List.mem_cons.mp hm with h | h
      · exact absurd h.symm hc
      · obtain ⟨i, hi⟩ := ih h
        exact ⟨i + 1, by simp [firstIdx?, hc, hi]⟩

lemma getElem?_firstIdx? {l : List String} {col : String} {i : Nat}
    (h : firstIdx? l col = some i) : l[i]? = some col := by
  induction l generalizing i with
  | nil => cases h
  | cons c cs ih =>
    rw [firstIdx?] at h
    by_cases hc : c = col
    · simp [hc] at h
      subst h
      simp [hc]
    · simp [hc] at h
      obtain ⟨j, hj, hji⟩ := h
      subst hji
      simpa using ih hj

lemma mem_survivors {header R : List String} {col : String} :
    col ∈ survivors header R ↔ col ∈ header ∧ col ∉ R := by
  simp [survivors, List.mem_filter]

lemma mem_header_of_mem_survivors {header R : List String} {col : String}
    (h : col ∈ survivors header R) : col ∈ header :=
  (mem_survivors.mp h).1

lemma survivors_nil_remove (header : List String) : survivors header [] = header := by
  simp [survivors]

lemma rowLookup_of_mem {header record : List String} {col : String}
    (hm : col ∈ header) :
    rowLookup header record col = some (record[lastIdxD header col]?) := by
  obtain ⟨i, hi⟩ := lastIdx?_isSome_of_mem hm
  simp [rowLookup, lastIdxD, hi]

lemma mapM_eq_map_of_forall {α β : Type} (f : α → Option β) (g : α → β)
    (l : List α) (h : ∀ a ∈ l, f a = some (g a)) : l.mapM f = some (l.map g) := by
  induction l with
  | nil => rfl
  | cons a l ih =>
    rw [List.mapM_cons, h a (List.mem_cons_self a l),
      ih (fun b hb => h b (List.mem_cons_of_mem a hb))]
    rfl

lemma filteredRow_eq {header fieldnames record : List String}
    (hsub : ∀ col ∈ fieldnames, col ∈ header) :
    filteredRow header fieldnames record
      = some (fieldnames.map (fun col => record[lastIdxD header col]?)) :=
  mapM_eq_map_of_forall _ _ fieldnames
    (fun col hc => rowLookup_of_mem (hsub col hc))

lemma writtenRow_eq {header fieldnames : List String} (record : List String)
    (hsub : ∀ col ∈ fieldnames, col ∈ header) :
    writtenRow header fieldnames record = some (rowOut header fieldnames record) := by
  rw [writtenRow, filteredRow_eq hsub]
  simp [rowOut, cellOut, Function.comp]

lemma processRows_eq {header fieldnames : List String}
    (hsub : ∀ col ∈ fieldnames, col ∈ header) :
    ∀ records : List (List String),
      processRows header fieldnames records
        = ((records.filter (fun r => !r.isEmpty)).map (rowOut header fieldnames),
           false)
  | [] => rfl
  | r :: rs => by
    rw [processRows]
    by_cases hr : r.isEmpty
    · simp [hr, processRows_eq hsub rs]
    · simp only [hr, if_false, Bool.not_false,
        writtenRow_eq r hsub, processRows_eq hsub rs]
      simp [hr]

lemma remove_columns_eq (header : List String) (records : List (List String))
    (R : List String) :
    remove_columns header records R
      = ⟨survivors header R,
         (records.filter (fun r => !r.isEmpty)).map
           (rowOut header (survivors header R)),
         false⟩ := by
  rw [remove_columns, processRows_eq (fun col hc => mem_header_of_mem_survivors hc)]

lemma remove_columns_not_aborted (header : List String)
    (records : List (List String)) (R : List String) :
    (remove_columns header records R).aborted = false := by
  rw [remove_columns_eq]

lemma rowOut_self {header r : List String} (hnd : header.Nodup)
    (hlen : r.length = header.length) : rowOut header header r = r := by
  apply List.ext_getElem?
  intro k
  rw [rowOut, List.getElem?_map]
  cases hk : header[k]? with
  | none =>
    have h1 : header.length ≤ k := List.getElem?_eq_none_iff.mp hk
    have h2 : r[k]? = none := List.getElem?_eq_none (by omega)
    simp [h2]
  | some col =>
    have hlast : lastIdx? header col = some k := lastIdx?_of_nodup_getElem? hnd hk
    have hklt : k < r.length := by
      have := lastIdx?_lt_length hlast
      omega
    obtain ⟨v, hv⟩ : ∃ v, r[k]? = some v := by
      cases hrk : r[k]? with
      | none => exact absurd (List.getElem?_eq_none_iff.mp hrk) (by omega)
      | some v => exact ⟨v, rfl⟩
    simp [cellOut, lastIdxD, hlast, hv, writeCell]

lemma map_eq_self_of {α : Type} (f : α → α) (l : List α)
    (h : ∀ a ∈ l, f a = a) : l.map f = l := by
  induction l with
  | nil => rfl
  | cons a l ih =>
    simp [h a (List.mem_cons_self a l),
      ih (fun b hb => h b (List.mem_cons_of_mem a hb))]

lemma map_congr_mem {α β : Type} (f g : α → β) (l : List α)
    (h : ∀ a ∈ l, f a = g a) : l.map f = l.map g := by
  induction l with
  | nil => rfl
  | cons a l ih =>
    simp [h a (List.mem_cons_self a l),
      ih (fun b hb => h b (List.mem_cons_of_mem a hb))]

lemma rowOut_take {header fieldnames r : List String}
    (hsub : ∀ col ∈ fieldnames, col ∈ header)
    (hlen : header.length ≤ r.length) :
    rowOut header fieldnames (r.take header.length)
      = rowOut header fieldnames r := by
  apply map_congr_mem
  intro col hc
  obtain ⟨i, hi⟩ := lastIdx?_isSome_of_mem (hsub col hc)
  have hilt : i < header.length := lastIdx?_lt_length hi
  simp [cellOut, lastIdxD, hi, List.getElem?_take_of_lt hilt]

/-- C1: for every input whose first record is a header of distinct column
names, the output header produced by `remove_columns` is exactly the
subsequence of the input header consisting of the names not in the removal
set, preserving the original relative order; removal-set names absent from
the header cause no error, and every surviving name appears in the output
header exactly once. -/
theorem claim_C1_output_header (header : List String)
    (records : List (List String)) (hnd : header.Nodup) :
    (remove_columns header records remove_list).outHeader
        = survivors header remove_list ∧
    List.Sublist ((remove_columns header records remove_list).outHeader) header ∧
    (∀ c ∈ (remove_columns header records remove_list).outHeader,
        c ∈ header ∧ c ∉ remove_list) ∧
    (∀ c ∈ header, c ∉ remove_list →
        ((remove_columns header records remove_list).outHeader).count c = 1) ∧
    (∀ c ∈ header, c ∈ remove_list →
        c ∉ (remove_columns header records remove_list).outHeader) := by
  rw [remove_columns_eq]
  refine ⟨rfl, List.filter_sublist header, fun c hc => mem_survivors.mp hc,
    fun c hc hrm => ?_, fun c hc hrm hmem => (mem_survivors.mp hmem).2 hrm⟩
  exact List.count_eq_one_of_mem (hnd.filter _) (mem_survivors.mpr ⟨hc, hrm⟩)

/-- Sample parsed inputs used by the concrete witnesses. -/
def sampleA : List String × List (List String) := (["A"], [])

/-- Sample parsed inputs used by the concrete witnesses. -/
def sampleB : List String × List (List String) := (["B"], [])

/-- Sample parsed inputs used by the concrete witnesses. -/
def sampleB1 : List String × List (List String) := (["B"], [["1"]])

/-- Witness for C1 at the header `A,B,E1,C,C2` (output header `A,B,C`). -/
theorem claim_C1_output_header_witness :
    (["A", "B", "E1", "C", "C2"] : List String).Nodup ∧
    ((remove_columns ["A", "B", "E1", "C", "C2"] [] remove_list).outHeader
        = survivors ["A", "B", "E1", "C", "C2"] remove_list ∧
    List.Sublist ((remove_columns ["A", "B", "E1", "C", "C2"] [] remove_list).outHeader)
        ["A", "B", "E1", "C", "C2"] ∧
    (∀ c ∈ (remove_columns ["A", "B", "E1", "C", "C2"] [] remove_list).outHeader,
        c ∈ (["A", "B", "E1", "C", "C2"] : List String) ∧ c ∉ remove_list) ∧
    (∀ c ∈ (["A", "B", "E1", "C", "C2"] : List String), c ∉ remove_list →
        ((remove_columns ["A", "B", "E1", "C", "C2"] [] remove_list).outHeader).count c = 1) ∧
    (∀ c ∈ (["A", "B", "E1", "C", "C2"] : List String), c ∈ remove_list →
        c ∉ (remove_columns ["A", "B", "E1", "C", "C2"] [] remove_list).outHeader)) :=
  ⟨by decide, claim_C1_output_header ["A", "B", "E1", "C", "C2"] [] (by decide)⟩

/-- C2: when every data record supplies a value for every column (record
length equals header length, no blank record), the program emits exactly
one output record per input record, in the same order, preceded by exactly
one header line, and never aborts. -/
theorem claim_C2_row_preservation (header : List String)
    (records : List (List String))
    (h : ∀ r ∈ records, r.length = header.length ∧ r ≠ []) :
    (remove_columns header records remove_list).aborted = false ∧
    (remove_columns header records remove_list).outHeader
        = survivors header remove_list ∧
    (remove_columns header records remove_list).outRows
        = records.map (rowOut header (survivors header remove_list)) ∧
    (remove_columns header records remove_list).outRows.length = records.length := by
  have hfil : records.filter (fun r => !r.isEmpty) = records := by
    rw [List.filter_eq_self]
    intro r hr
    simpa using (h r hr).2
  rw [remove_columns_eq, hfil]
  exact ⟨rfl, rfl, rfl, by simp⟩

/-- Witness for C2 at header `A,E1` with the single row `1,2`. -/
theorem claim_C2_row_preservation_witness :
    (∀ r ∈ ([["1", "2"]] : List (List String)),
        r.length = (["A", "E1"] : List String).length ∧ r ≠ []) ∧
    ((remove_columns ["A", "E1"] [["1", "2"]] remove_list).aborted = false ∧
    (remove_columns ["A", "E1"] [["1", "2"]] remove_list).outHeader
        = survivors ["A", "E1"] remove_list ∧
    (remove_columns ["A", "E1"] [["1", "2"]] remove_list).outRows
        = [["1", "2"]].map (rowOut ["A", "E1"] (survivors ["A", "E1"] remove_list)) ∧
    (remove_columns ["A", "E1"] [["1", "2"]] remove_list).outRows.length
        = ([["1", "2"]] : List (List String)).length) :=
  ⟨by decide, claim_C2_row_preservation ["A", "E1"] [["1", "2"]] (by decide)⟩

/-- C4 counterexample: with header `A,B` and the short data row `x`, the
lookup of the surviving column `B` does not raise: the row is emitted with
an empty final cell and processing is not aborted, contradicting the
claimed uncaught KeyLookup failure. -/
theorem claim_C4_counterexample :
    remove_columns ["A", "B"] [["x"]] remove_list
        = ⟨["A", "B"], [["x", ""]], false⟩ ∧
    ¬ (remove_columns ["A", "B"] [["x"]] remove_list).aborted = true := by
  decide

/-- C4 (amended): a data row shorter than the header never makes the lookup
fail: `csv.DictReader` fills the missing columns with the restval `None`,
so processing never aborts and each missing surviving cell is written as
the empty string. -/
theorem claim_C4_amended_short_rows (header : List String)
    (records : List (List String)) (R : List String) :
    (remove_columns header records R).aborted = false ∧
    (∀ record : List String, ∀ col : String, ∀ i j : Nat,
        lastIdx? header col = some j → record.length ≤ j →
        firstIdx? (survivors header R) col = some i →
        (rowOut header (survivors header R) record)[i]? = some "") := by
  refine ⟨remove_columns_not_aborted header records R, ?_⟩
  intro record col i j hj hlen hi
  have hcol : (survivors header R)[i]? = some col := getElem?_firstIdx? hi
  rw [rowOut, List.getElem?_map, hcol]
  have hnone : record[j]? = none := List.getElem?_eq_none hlen
  simp [cellOut, lastIdxD, hj, hnone, writeCell]

/-- Witness for the amended C4 at header `A,B`, short row `y`, column `B`. -/
theorem claim_C4_amended_short_rows_witness :
    (remove_columns ["A", "B"] [["y"]] remove_list).aborted = false ∧
    (rowOut ["A", "B"] (survivors ["A", "B"] remove_list) ["y"])[1]? = some "" :=
  ⟨(claim_C4_amended_short_rows ["A", "B"] [["y"]] remove_list).1,
   (claim_C4_amended_short_rows ["A", "B"] [["y"]] remove_list).2
     ["y"] "B" 1 1 (by decide) (by decide) (by decide)⟩

/-- C5: the removal set is the fixed twelve-name list known at program
start; it is not derived from the input stream or the command line, and
both execution paths (existing file and stdin fallback) pass the same
`remove_list` to `remove_columns`. -/
theorem claim_C5_fixed_removal_list (argv : List String)
    (fileInput stdinInput : List String × List (List String))
    (h : 2 ≤ argv.length) :
    remove_list = ["E1", "E2", "E3", "E4", "E5", "E6",
                   "C1", "C2", "C3", "C4", "C5", "C6"] ∧
    remove_list.length = 12 ∧
    (mainRun argv true fileInput stdinInput).output
        = some (remove_columns fileInput.1 fileInput.2 remove_list) ∧
    (mainRun argv false fileInput stdinInput).output
        = some (remove_columns stdinInput.1 stdinInput.2 remove_list) := by
  have hlt : ¬ argv.length < 2 := by omega
  refine ⟨rfl, rfl, ?_, ?_⟩ <;> simp [mainRun, hlt]

/-- Witness for C5 at `argv = [prog, data.csv]`. -/
theorem claim_C5_fixed_removal_list_witness :
    2 ≤ (["prog", "data.csv"] : List String).length ∧
    (remove_list = ["E1", "E2", "E3", "E4", "E5", "E6",
                    "C1", "C2", "C3", "C4", "C5", "C6"] ∧
    remove_list.length = 12 ∧
    (mainRun ["prog", "data.csv"] true sampleA sampleB).output
        = some (remove_columns sampleA.1 sampleA.2 remove_list) ∧
    (mainRun ["prog", "data.csv"] false sampleA sampleB).output
        = some (remove_columns sampleB.1 sampleB.2 remove_list)) :=
  ⟨by decide,
   claim_C5_fixed_removal_list ["prog", "data.csv"] sampleA sampleB (by decide)⟩

/-- C7: when the path argument names no existing file the program does not
fail: it reads standard input, prints nothing to stderr, exits 0, applies
the fixed built-in removal list, and the captured leftover arguments never
change the result. -/
theorem claim_C7_stdin_fallback (argv : List String)
    (fileInput stdinInput : List String × List (List String))
    (h : 2 ≤ argv.length) :
    (mainRun argv false fileInput stdinInput).usedStdin = true ∧
    (mainRun argv false fileInput stdinInput).stderrMsg = none ∧
    (mainRun argv false fileInput stdinInput).exitCode = 0 ∧
    (mainRun argv false fileInput stdinInput).output
        = some (remove_columns stdinInput.1 stdinInput.2 remove_list) ∧
    (∀ argv₂ : List String, 2 ≤ argv₂.length →
        mainRun argv₂ false fileInput stdinInput
          = mainRun argv false fileInput stdinInput) := by
  have hlt : ¬ argv.length < 2 := by omega
  refine ⟨?_, ?_, ?_, ?_, ?_⟩
  · simp [mainRun, hlt]
  · simp [mainRun, hlt]
  · simp [mainRun, hlt, remove_columns_not_aborted]
  · simp [mainRun, hlt]
  · intro argv₂ h₂
    have hlt₂ : ¬ argv₂.length < 2 := by omega
    simp [mainRun, hlt, hlt₂]

/-- Witness for C7 at `argv = [prog, missing.csv]`. -/
theorem claim_C7_stdin_fallback_witness :
    2 ≤ (["prog", "missing.csv"] : List String).length ∧
    ((mainRun ["prog", "missing.csv"] false sampleA sampleB).usedStdin = true ∧
    (mainRun ["prog", "missing.csv"] false sampleA sampleB).stderrMsg = none ∧
    (mainRun ["prog", "missing.csv"] false sampleA sampleB).exitCode = 0 ∧
    (mainRun ["prog", "missing.csv"] false sampleA sampleB).output
        = some (remove_columns sampleB.1 sampleB.2 remove_list) ∧
    (∀ argv₂ : List String, 2 ≤ argv₂.length →
        mainRun argv₂ false sampleA sampleB
          = mainRun ["prog", "missing.csv"] false sampleA sampleB)) :=
  ⟨by decide,
   claim_C7_stdin_fallback ["prog", "missing.csv"] sampleA sampleB (by decide)⟩

/-- C8: invoked with no command-line argument, the program writes the usage
message to standard error and exits with status 1; a run with an argument
completes with exit status 0. -/
theorem claim_C8_exit_codes (prog : String) (argv : List String) (fe : Bool)
    (fileInput stdinInput : List String × List (List String)) :
    mainRun [prog] fe fileInput stdinInput
        = ⟨1, some usageMessage, false, none⟩ ∧
    (2 ≤ argv.length → (mainRun argv fe fileInput stdinInput).exitCode = 0) := by
  constructor
  · rfl
  · intro h
    have hlt : ¬ argv.length < 2 := by omega
    cases fe <;> simp [mainRun, hlt, remove_columns_not_aborted]

/-- Witness for C8 at `argv = [prog]` and `argv = [prog, f.csv]`. -/
theorem claim_C8_exit_codes_witness :
    mainRun ["prog"] true sampleA sampleB
        = ⟨1, some usageMessage, false, none⟩ ∧
    (2 ≤ (["prog", "f.csv"] : List String).length →
        (mainRun ["prog", "f.csv"] true sampleA sampleB).exitCode = 0) :=
  claim_C8_exit_codes "prog" ["prog", "f.csv"] true sampleA sampleB

/-- C10: the result is a deterministic function of the input stream alone:
two runs receiving the same parsed input produce identical results even
when the command-line argument tails differ. -/
theorem claim_C10_argv_noninterference (argv₁ argv₂ : List String) (fe : Bool)
    (fileInput stdinInput : List String × List (List String))
    (h₁ : 2 ≤ argv₁.length) (h₂ : 2 ≤ argv₂.length) :
    mainRun argv₁ fe fileInput stdinInput = mainRun argv₂ fe fileInput stdinInput := by
  have hlt₁ : ¬ argv₁.length < 2 := by omega
  have hlt₂ : ¬ argv₂.length < 2 := by omega
  cases fe <;> simp [mainRun, hlt₁, hlt₂]

/-- Witness for C10 at two argument vectors with different tails. -/
theorem claim_C10_argv_noninterference_witness :
    2 ≤ (["prog", "data.csv"] : List String).length ∧
    2 ≤ (["prog", "data.csv", "X", "Y"] : List String).length ∧
    mainRun ["prog", "data.csv"] false sampleA sampleB1
        = mainRun ["prog", "data.csv", "X", "Y"] false sampleA sampleB1 :=
  ⟨by decide, by decide,
   claim_C10_argv_noninterference ["prog", "data.csv"] ["prog", "data.csv", "X", "Y"]
     false sampleA sampleB1 (by decide) (by decide)⟩

/-- C3: for a data row that supplies a value for every column and for every
surviving column, the emitted cell equals the input cell verbatim: at the
surviving column's position in the output row stands exactly the value
found at that column's position in the input record. -/
theorem claim_C3_cell_fidelity (header record : List String) (col : String)
    (hnd : header.Nodup) (hlen : record.length = header.length)
    (hmem : col ∈ header) (hrem : col ∉ remove_list) :
    ∃ i j v,
      firstIdx? (survivors header remove_list) col = some i ∧
      firstIdx? header col = some j ∧
      record[j]? = some v ∧
      (rowOut header (survivors header remove_list) record)[i]? = some v ∧
      (remove_columns header [record] remove_list).outRows
        = [rowOut header (survivors header remove_list) record] := by
  have hsurv : col ∈ survivors header remove_list := mem_survivors.mpr ⟨hmem, hrem⟩
  obtain ⟨i, hi⟩ := firstIdx?_isSome_of_mem hsurv
  obtain ⟨j, hj⟩ := firstIdx?_isSome_of_mem hmem
  have hhj : header[j]? = some col := getElem?_firstIdx? hj
  have hlast : lastIdx? header col = some j := lastIdx?_of_nodup_getElem? hnd hhj
  obtain ⟨hjh, -⟩ := List.getElem?_eq_some_iff.mp hhj
  have hjlt : j < record.length := by omega
  obtain ⟨v, hv⟩ : ∃ v, record[j]? = some v := by
    cases hrj : record[j]? with
    | none => exact absurd (List.getElem?_eq_none_iff.mp hrj) (by omega)
    | some v => exact ⟨v, rfl⟩
  refine ⟨i, j, v, hi, hj, hv, ?_, ?_⟩
  · rw [rowOut, List.getElem?_map, getElem?_firstIdx? hi]
    simp [cellOut, lastIdxD, hlast, hv, writeCell]
  · have hne : record ≠ [] := by
      intro hrec
      rw [hrec] at hjlt
      simp at hjlt
    rw [remove_columns_eq]
    simp [List.filter_cons, hne]

/-- Witness for C3 at header `A,E1,B`, row `x,y,z`, column `B`
(output position 1, input position 2, value `z`). -/
theorem claim_C3_cell_fidelity_witness :
    (["A", "E1", "B"] : List String).Nodup ∧
    (["x", "y", "z"] : List String).length = (["A", "E1", "B"] : List String).length ∧
    "B" ∈ (["A", "E1", "B"] : List String) ∧
    "B" ∉ remove_list ∧
    (∃ i j v,
      firstIdx? (survivors ["A", "E1", "B"] remove_list) "B" = some i ∧
      firstIdx? ["A", "E1", "B"] "B" = some j ∧
      (["x", "y", "z"] : List String)[j]? = some v ∧
      (rowOut ["A", "E1", "B"] (survivors ["A", "E1", "B"] remove_list)
        ["x", "y", "z"])[i]? = some v ∧
      (remove_columns ["A", "E1", "B"] [["x", "y", "z"]] remove_list).outRows
        = [rowOut ["A", "E1", "B"] (survivors ["A", "E1", "B"] remove_list)
            ["x", "y", "z"]]) :=
  ⟨by decide, by decide, by decide, by decide,
   claim_C3_cell_fidelity ["A", "E1", "B"] ["x", "y", "z"] "B"
     (by decide) (by decide) (by decide) (by decide)⟩

/-- C6: running `remove_columns` with an empty removal set is the identity
on every well-formed input (distinct header names, each record as long as
the header, no blank record): every column survives and every cell is
reproduced. -/
theorem claim_C6_empty_removal_identity (header : List String)
    (records : List (List String)) (hnd : header.Nodup)
    (h : ∀ r ∈ records, r.length = header.length ∧ r ≠ []) :
    remove_columns header records [] = ⟨header, records, false⟩ := by
  rw [remove_columns_eq, survivors_nil_remove header]
  have hfil : records.filter (fun r => !r.isEmpty) = records := by
    rw [List.filter_eq_self]
    intro r hr
    simpa using (h r hr).2
  rw [hfil, map_eq_self_of _ _ (fun r hr => rowOut_self hnd (h r hr).1)]

/-- Witness for C6 at header `A,B` with the single row `x,y`. -/
theorem claim_C6_empty_removal_identity_witness :
    (["A", "B"] : List String).Nodup ∧
    (∀ r ∈ ([["x", "y"]] : List (List String)),
        r.length = (["A", "B"] : List String).length ∧ r ≠ []) ∧
    remove_columns ["A", "B"] [["x", "y"]] []
        = ⟨["A", "B"], [["x", "y"]], false⟩ :=
  ⟨by decide, by decide,
   claim_C6_empty_removal_identity ["A", "B"] [["x", "y"]] (by decide) (by decide)⟩

/-- C9: a data row with more fields than the header loses the extra values
silently: no error is raised, and the whole output equals the output for
the same input with every record truncated to the header's length. -/
theorem claim_C9_extra_fields_dropped (header : List String)
    (records : List (List String)) (R : List String)
    (hpos : 0 < header.length)
    (h : ∀ r ∈ records, header.length ≤ r.length) :
    (remove_columns header records R).aborted = false ∧
    remove_columns header records R
      = remove_columns header (records.map (fun r => r.take header.length)) R := by
  refine ⟨remove_columns_not_aborted header records R, ?_⟩
  have hfil : records.filter (fun r => !r.isEmpty) = records := by
    rw [List.filter_eq_self]
    intro r hr
    have h1 : 0 < r.length := lt_of_lt_of_le hpos (h r hr)
    simpa using List.length_pos.mp h1
  have hfil2 : (records.map (fun r => r.take header.length)).filter
      (fun r => !r.isEmpty) = records.map (fun r => r.take header.length) := by
    rw [List.filter_eq_self]
    intro x hx
    obtain ⟨r, hr, rfl⟩ := List.mem_map.mp hx
    have h1 : 0 < (r.take header.length).length := by
      rw [List.length_take]
      have := h r hr
      omega
    simpa using List.length_pos.mp h1
  rw [remove_columns_eq, remove_columns_eq, hfil, hfil2, List.map_map]
  congr 1
  exact map_congr_mem _ _ records
    (fun r hr =>
      (rowOut_take (fun c hc => mem_header_of_mem_survivors hc) (h r hr)).symm)

/-- Witness for C9 at header `A,B` with the long row `x,y,z`. -/
theorem claim_C9_extra_fields_dropped_witness :
    0 < (["A", "B"] : List String).length ∧
    (∀ r ∈ ([["x", "y", "z"]] : List (List String)),
        (["A", "B"] : List String).length ≤ r.length) ∧
    ((remove_columns ["A", "B"] [["x", "y", "z"]] remove_list).aborted = false ∧
    remove_columns ["A", "B"] [["x", "y", "z"]] remove_list
      = remove_columns ["A", "B"]
          ([["x", "y", "z"]].map (fun r => r.take (["A", "B"] : List String).length))
          remove_list) :=
  ⟨by decide, by decide,
   claim_C9_extra_fields_dropped ["A", "B"] [["x", "y", "z"]] remove_list
     (by decide) (by decide)⟩

end PyCsv
